import Mathlib

/-!
Verification of the acoustid-index search engine against its specification.

The development shallowly embeds the parts of the repository that the
claims are about: search-result sorting and filtering
(`src/index/search_result_test.cpp` pins the behaviour of `sortSearchResults`
and `filterSearchResults`), segment file naming (`src/index/segment_info.h`),
and the index / HTTP-handler semantics (`src/server/http_test.cpp` pins the
behaviour of index creation, document upsert/delete, search, bulk operations
and the JSON responses).  Implementation files that are not in the sources
are modelled from the specification, as marked in doc comments.
-/

namespace AcoustidIndex

/-- `SearchResult` from `search_result.h`: a `(docId, score)` pair, as
constructed by the tests via `{ docId, score }` brace initialisation. -/
structure SearchResult where
  docId : Nat
  score : Nat
deriving DecidableEq, Repr

/-- The ordering used by `sortSearchResults`: score descending, ties broken
by docId ascending.  `ResultOrder a b` means `a` comes no later than `b`. -/
def ResultOrder (a b : SearchResult) : Prop :=
  b.score < a.score ∨ (a.score = b.score ∧ a.docId ≤ b.docId)

instance (a b : SearchResult) : Decidable (ResultOrder a b) := by
  unfold ResultOrder; infer_instance

instance : IsTotal SearchResult ResultOrder where
  total a b := by
    unfold ResultOrder
    rcases Nat.lt_trichotomy a.score b.score with h | h | h
    · exact Or.inr (Or.inl h)
    · rcases Nat.le_total a.docId b.docId with hd | hd
      · exact Or.inl (Or.inr ⟨h, hd⟩)
      · exact Or.inr (Or.inr ⟨h.symm, hd⟩)
    · exact Or.inl (Or.inl h)

instance : IsTrans SearchResult ResultOrder where
  trans a b c hab hbc := by
    unfold ResultOrder at *
    rcases hab with h1 | ⟨h1, d1⟩ <;> rcases hbc with h2 | ⟨h2, d2⟩
    · exact Or.inl (Nat.lt_trans h2 h1)
    · exact Or.inl (h2 ▸ h1)
    · exact Or.inl (h1 ▸ h2)
    · exact Or.inr ⟨h1.trans h2, Nat.le_trans d1 d2⟩

instance : IsAntisymm SearchResult ResultOrder where
  antisymm a b hab hba := by
    unfold ResultOrder at *
    rcases hab with h1 | ⟨h1, d1⟩ <;> rcases hba with h2 | ⟨h2, d2⟩
    · exact absurd h1 (Nat.lt_asymm h2)
    · exact absurd h1 (by omega)
    · exact absurd h2 (by omega)
    · cases a; cases b
      simp only [SearchResult.mk.injEq]
      exact ⟨Nat.le_antisymm d1 d2, h1⟩

/-- Modelled from the spec: `sortSearchResults` (declared in
`search_result.h`, which is not among the sources) sorts a result vector by
`(score desc, docId asc)`; the comparator is a total order on the
`(score, docId)` value, so the sorted output is unique and the choice of
sorting algorithm is irrelevant. -/
def sortSearchResults (l : List SearchResult) : List SearchResult :=
  List.insertionSort ResultOrder l

/-- The erase/remove step of `filterSearchResults`: drop every result whose
score is strictly below `minScore`. -/
def dropBelowScore (minScore : Nat) : List SearchResult → List SearchResult
  | [] => []
  | r :: rest =>
    if r.score < minScore then dropBelowScore minScore rest
    else r :: dropBelowScore minScore rest

/-- Modelled from the spec: `filterSearchResults` (declared in
`search_result.h`, which is not among the sources).  The spec section 9
defers the exact `min_score` semantics to the tests in
`search_result_test.cpp`; those tests pin `min_score` as a percentage of the
score of the top result (`FilterSearchResultsMinScore90` keeps `{101,10}` because
`10 ≥ 10*90/100` and drops the score-1 results), with an inclusive bound.
After the drop the list is truncated to `limit` entries. -/
def filterSearchResults (results : List SearchResult) (limit : Nat)
    (minScorePercent : Nat) : List SearchResult :=
  match results with
  | [] => List.take limit results
  | top :: rest =>
    (if 0 < minScorePercent then
      dropBelowScore (top.score * minScorePercent / 100) (top :: rest)
    else top :: rest).take limit

/-- Association-list lookup on document ids, first match wins. -/
def lookupDoc : List (Nat × List Nat) → Nat → Option (List Nat)
  | [], _ => none
  | (d', ts) :: rest, d => if d' = d then some ts else lookupDoc rest d

/-- Association-list lookup on attribute names, first match wins. -/
def lookupAttr : List (String × String) → String → Option String
  | [], _ => none
  | (k', v) :: rest, k => if k' = k then some v else lookupAttr rest k

/-- Modelled from the spec: the visible state of one index (`index.h` is not
among the sources).  `docs` maps each live docId to its current term list,
`attrs` holds the user attributes, and `revision` is the revision counter,
which starts at 1 on index creation and increments on every mutation. -/
structure IndexState where
  docs : List (Nat × List Nat)
  attrs : List (String × String)
  revision : Nat
deriving DecidableEq, Repr

/-- A freshly created index: no documents, no attributes, revision 1. -/
def emptyIndex : IndexState := ⟨[], [], 1⟩

/-- Replace the binding of `d` in the document table, keeping its position,
or append a new binding at the end. -/
def upsertDocs (docs : List (Nat × List Nat)) (d : Nat) (ts : List Nat) :
    List (Nat × List Nat) :=
  match docs with
  | [] => [(d, ts)]
  | (d', ts') :: rest =>
    if d' = d then (d, ts) :: rest else (d', ts') :: upsertDocs rest d ts

/-- Modelled from the spec: `Index::insertOrUpdateDocument` atomically
replaces the term multiset of the document (per-docId last-write-wins) and
advances the revision. -/
def insertOrUpdateDocument (st : IndexState) (d : Nat) (ts : List Nat) :
    IndexState :=
  { st with docs := upsertDocs st.docs d ts, revision := st.revision + 1 }

/-- Modelled from the spec: `Index::deleteDocument` removes the document and
advances the revision. -/
def deleteDocument (st : IndexState) (d : Nat) : IndexState :=
  { st with docs := st.docs.filter (fun p => p.1 ≠ d),
            revision := st.revision + 1 }

/-- Modelled from the spec: `Index::setAttribute` binds an attribute name to
a value and advances the revision. -/
def setAttribute (st : IndexState) (k v : String) : IndexState :=
  { st with attrs := (k, v) :: st.attrs.filter (fun p => p.1 ≠ k),
            revision := st.revision + 1 }

/-- `Index::containsDocument`: is this docId currently live? -/
def containsDocument (st : IndexState) (d : Nat) : Bool :=
  (lookupDoc st.docs d).isSome

/-- `Index::getAttribute`. -/
def getAttribute (st : IndexState) (k : String) : Option String :=
  lookupAttr st.attrs k

/-- The score of one document for a query: the number of query term
occurrences (duplicates in the query count once per occurrence) present in
the term multiset of the document. -/
def termScore (query ts : List Nat) : Nat :=
  (query.filter (fun t => ts.contains t)).length

/-- Modelled from the spec: the score accumulation of the searcher.  Every live
document whose intersection with the query is non-empty (the default
`min_score` of 1) yields one result carrying the intersection cardinality. -/
def searchScores (docs : List (Nat × List Nat)) (query : List Nat) :
    List SearchResult :=
  docs.filterMap (fun p =>
    if 1 ≤ termScore query p.2 then
      some (SearchResult.mk p.1 (termScore query p.2))
    else none)

/-- Modelled from the spec: the full search pipeline — score, sort by
`(score desc, docId asc)`, then truncate to `limit`. -/
def searchIndex (st : IndexState) (query : List Nat) (limit : Nat) :
    List SearchResult :=
  filterSearchResults (sortSearchResults (searchScores st.docs query)) limit 0

/-- Apply a list of upserts, oldest first, starting from a state. -/
def applyUpserts (ops : List (Nat × List Nat)) (st : IndexState) : IndexState :=
  ops.foldl (fun s p => insertOrUpdateDocument s p.1 p.2) st

/-- Association-list lookup on index names, first match wins. -/
def lookupIndex : List (String × IndexState) → String → Option IndexState
  | [], _ => none
  | (n', st) :: rest, n => if n' = n then some st else lookupIndex rest n

/-- Modelled from the spec: `MultiIndex` (`multi_index.h` is not among the
sources) maps index names to indexes. -/
structure MultiIndex where
  indexes : List (String × IndexState)
deriving DecidableEq, Repr

/-- A `MultiIndex` with no indexes, as built by the test fixture. -/
def emptyMulti : MultiIndex := ⟨[]⟩

/-- `MultiIndex::getIndex`. -/
def getIndex (mi : MultiIndex) (name : String) : Option IndexState :=
  lookupIndex mi.indexes name

/-- Modelled from the spec: `MultiIndex::createIndex` allocates a fresh
index under the name when absent and is a no-op when it already exists. -/
def createIndex (mi : MultiIndex) (name : String) : MultiIndex :=
  match lookupIndex mi.indexes name with
  | some _ => mi
  | none => ⟨(name, emptyIndex) :: mi.indexes⟩

/-- An HTTP response: status code and exact body text. -/
structure HttpResponse where
  status : Nat
  body : String
deriving DecidableEq, Repr

/-- The JSON body `{"revision":n}`. -/
def jsonRevision (n : Nat) : String :=
  "\x7b\"revision\":" ++ toString n ++ "\x7d"

/-- The JSON body `{"id":n}`. -/
def jsonId (n : Nat) : String :=
  "\x7b\"id\":" ++ toString n ++ "\x7d"

/-- The empty JSON object body. -/
def emptyJson : String := "\x7b\x7d"

/-- The exact 404 body for a missing index. -/
def indexNotFoundBody : String :=
  "\x7b\"error\":\x7b\"description\":\"index does not exist\"," ++
    "\"type\":\"not_found\"\x7d,\"status\":404\x7d"

/-- The exact 404 body for a missing document. -/
def docNotFoundBody : String :=
  "\x7b\"error\":\x7b\"description\":\"document does not exist\"," ++
    "\"type\":\"not_found\"\x7d,\"status\":404\x7d"

/-- Modelled from the spec: the handler for `GET /<idx>` — `200` with the
revision when the index exists, `404` with the exact error body otherwise. -/
def handleGetIndex (mi : MultiIndex) (name : String) : HttpResponse :=
  match getIndex mi name with
  | some st => ⟨200, jsonRevision st.revision⟩
  | none => ⟨404, indexNotFoundBody⟩

/-- Modelled from the spec: the handler for `HEAD /<idx>` — `200 {}` when
the index exists, the same `404` error body otherwise. -/
def handleHeadIndex (mi : MultiIndex) (name : String) : HttpResponse :=
  match getIndex mi name with
  | some _ => ⟨200, emptyJson⟩
  | none => ⟨404, indexNotFoundBody⟩

/-- Modelled from the spec: the handler for `PUT /<idx>` — create the index
if absent, answer `200 {"revision":N}` in both cases. -/
def handlePutIndex (mi : MultiIndex) (name : String) :
    MultiIndex × HttpResponse :=
  match lookupIndex mi.indexes name with
  | some st => (mi, ⟨200, jsonRevision st.revision⟩)
  | none => (createIndex mi name, ⟨200, jsonRevision emptyIndex.revision⟩)

/-- Modelled from the spec: the handler for `GET /<idx>/_doc/<id>` —
`200 {"id":N}` when the document is present, the exact `404` bodies for a
missing index or document. -/
def handleGetDocument (mi : MultiIndex) (name : String) (d : Nat) :
    HttpResponse :=
  match getIndex mi name with
  | none => ⟨404, indexNotFoundBody⟩
  | some st =>
    if containsDocument st d then ⟨200, jsonId d⟩
    else ⟨404, docNotFoundBody⟩

/-- Modelled from the spec: the handler for `HEAD /<idx>/_doc/<id>`; the
tests pin that it answers with the same bodies as `GET`. -/
def handleHeadDocument (mi : MultiIndex) (name : String) (d : Nat) :
    HttpResponse :=
  handleGetDocument mi name d

/-- Modelled from the spec: the handler for `DELETE /<idx>/_doc/<id>` on an
existing index — delete the document, answer `200 {}`. -/
def handleDeleteDocument (st : IndexState) (d : Nat) :
    IndexState × HttpResponse :=
  (deleteDocument st d, ⟨200, emptyJson⟩)

/-- A minimal JSON value type, enough for the bulk request bodies. -/
inductive Json where
  | str : String → Json
  | num : Nat → Json
  | arr : List Json → Json
  | obj : List (String × Json) → Json

/-- Field lookup in a JSON object, first match wins. -/
def jsonField : List (String × Json) → String → Option Json
  | [], _ => none
  | (k', v) :: rest, k => if k' = k then some v else jsonField rest k

/-- The three bulk operation kinds, decoded once at the front-end boundary. -/
inductive BulkOperation where
  | upsert : Nat → List Nat → BulkOperation
  | del : Nat → BulkOperation
  | setAttr : String → String → BulkOperation
deriving DecidableEq, Repr

/-- Decode a JSON array of numbers into a term list. -/
def parseTerms : Json → Option (List Nat)
  | Json.arr xs =>
    xs.mapM (fun j => match j with | Json.num n => some n | _ => none)
  | _ => none

/-- Decode the payload of an `{"upsert":{"id":N,"terms":[…]}}` operation. -/
def parseUpsert (j : Json) : Option BulkOperation :=
  match j with
  | Json.obj f =>
    match jsonField f "id", jsonField f "terms" with
    | some (Json.num d), some terms =>
      match parseTerms terms with
      | some ts => some (BulkOperation.upsert d ts)
      | none => none
    | _, _ => none
  | _ => none

/-- Decode the payload of a `{"delete":{"id":N}}` operation. -/
def parseDelete (j : Json) : Option BulkOperation :=
  match j with
  | Json.obj f =>
    match jsonField f "id" with
    | some (Json.num d) => some (BulkOperation.del d)
    | _ => none
  | _ => none

/-- Decode the payload of a `{"set":{"name":K,"value":V}}` operation. -/
def parseSet (j : Json) : Option BulkOperation :=
  match j with
  | Json.obj f =>
    match jsonField f "name", jsonField f "value" with
    | some (Json.str k), some (Json.str v) => some (BulkOperation.setAttr k v)
    | _, _ => none
  | _ => none

/-- Decode one bulk operation object by its single tag key. -/
def parseOperation (j : Json) : Option BulkOperation :=
  match j with
  | Json.obj fields =>
    match jsonField fields "upsert" with
    | some ju => parseUpsert ju
    | none =>
      match jsonField fields "delete" with
      | some jd => parseDelete jd
      | none =>
        match jsonField fields "set" with
        | some js => parseSet js
        | none => none
  | _ => none

/-- Decode a list of bulk operation objects; any bad element fails the
whole request (all-or-nothing). -/
def parseOperations (xs : List Json) : Option (List BulkOperation) :=
  xs.mapM parseOperation

/-- Modelled from the spec: the bulk request body is either a bare JSON
array of operation objects or an object `{"operations":[…]}` wrapping the
same array (`http.cpp` is not among the sources). -/
def parseBulkBody : Json → Option (List BulkOperation)
  | Json.arr xs => parseOperations xs
  | Json.obj fields =>
    match jsonField fields "operations" with
    | some (Json.arr xs) => parseOperations xs
    | _ => none
  | _ => none

/-- Apply one decoded bulk operation to the index. -/
def applyBulkOperation (st : IndexState) : BulkOperation → IndexState
  | BulkOperation.upsert d ts => insertOrUpdateDocument st d ts
  | BulkOperation.del d => deleteDocument st d
  | BulkOperation.setAttr k v => setAttribute st k v

/-- Apply a decoded batch in order. -/
def applyBulkOperations (st : IndexState) (ops : List BulkOperation) :
    IndexState :=
  ops.foldl applyBulkOperation st

/-- Modelled from the spec: the handler for `POST /<idx>/_bulk` on an
existing index — decode the body in either accepted form, apply the batch
atomically, answer `200 {}`; an undecodable body changes nothing and is a
`400`. -/
def handleBulk (st : IndexState) (body : Json) : IndexState × HttpResponse :=
  match parseBulkBody body with
  | some ops => (applyBulkOperations st ops, ⟨200, emptyJson⟩)
  | none => (st, ⟨400, emptyJson⟩)

/-- `SegmentInfo` from `segment_info.h`: id (a C `int`), block count and
last key. -/
structure SegmentInfo where
  id : Int
  blockCount : Nat
  lastKey : Nat
deriving DecidableEq, Repr

/-- `SegmentInfo::name`: `QString("segment_%1").arg(m_id)`. -/
def SegmentInfo.name (s : SegmentInfo) : String :=
  "segment_" ++ toString s.id

/-- `SegmentInfo::indexFileName`: `name() + ".fii"`. -/
def SegmentInfo.indexFileName (s : SegmentInfo) : String :=
  s.name ++ ".fii"

/-- `SegmentInfo::dataFileName`: `name() + ".fid"`. -/
def SegmentInfo.dataFileName (s : SegmentInfo) : String :=
  s.name ++ ".fid"

/-- The keys of the document table. -/
def docKeys (docs : List (Nat × List Nat)) : List Nat :=
  docs.map Prod.fst

theorem dropBelowScore_eq_filter (m : Nat) (l : List SearchResult) :
    dropBelowScore m l = l.filter (fun r => m ≤ r.score) := by
  induction l with
  | nil => rfl
  | cons r rest ih =>
    by_cases h : r.score < m
    · rw [dropBelowScore, if_pos h, List.filter_cons, ih]
      simp [Nat.not_le.mpr h]
    · rw [dropBelowScore, if_neg h, List.filter_cons, ih]
      simp [Nat.not_lt.mp h]

theorem mem_of_mem_filterSearchResults {l : List SearchResult}
    {limit m : Nat} {r : SearchResult}
    (h : r ∈ filterSearchResults l limit m) : r ∈ l := by
  cases l with
  | nil => simp [filterSearchResults] at h
  | cons top rest =>
    rw [filterSearchResults] at h
    by_cases hm : 0 < m
    · rw [if_pos hm] at h
      have h2 := List.take_subset _ _ h
      rw [dropBelowScore_eq_filter] at h2
      exact List.mem_of_mem_filter h2
    · rw [if_neg hm] at h
      exact List.take_subset _ _ h

theorem mem_sortSearchResults {l : List SearchResult} {r : SearchResult} :
    r ∈ sortSearchResults l ↔ r ∈ l :=
  (List.perm_insertionSort ResultOrder l).mem_iff

theorem mem_searchScores {docs : List (Nat × List Nat)} {query : List Nat}
    {r : SearchResult} (h : r ∈ searchScores docs query) :
    ∃ ts, (r.docId, ts) ∈ docs ∧ r.score = termScore query ts ∧
      1 ≤ r.score := by
  rw [searchScores, List.mem_filterMap] at h
  obtain ⟨⟨a, ts⟩, hp, he⟩ := h
  by_cases hs : 1 ≤ termScore query ts
  · rw [if_pos hs] at he
    cases he
    exact ⟨ts, hp, rfl, hs⟩
  · rw [if_neg hs] at he
    cases he

theorem lookup_mem_searchScores {docs : List (Nat × List Nat)} {d : Nat}
    {ts query : List Nat} (h : lookupDoc docs d = some ts)
    (hs : 1 ≤ termScore query ts) :
    SearchResult.mk d (termScore query ts) ∈ searchScores docs query := by
  induction docs with
  | nil => simp [lookupDoc] at h
  | cons p rest ih =>
    obtain ⟨a, b⟩ := p
    rw [lookupDoc] at h
    rw [searchScores, List.filterMap_cons]
    by_cases hd : a = d
    · rw [if_pos hd] at h
      cases h
      subst hd
      rw [if_pos hs]
      exact List.mem_cons_self _ _
    · rw [if_neg hd] at h
      have hrec := ih h
      rw [searchScores] at hrec
      by_cases hb : 1 ≤ termScore query b
      · rw [if_pos hb]
        exact List.mem_cons_of_mem _ hrec
      · rw [if_neg hb]
        exact hrec

theorem mem_docKeys_upsertDocs {docs : List (Nat × List Nat)} {d x : Nat}
    {ts : List Nat} (h : x ∈ docKeys (upsertDocs docs d ts)) :
    x = d ∨ x ∈ docKeys docs := by
  induction docs with
  | nil =>
    simp [upsertDocs, docKeys] at h
    exact Or.inl h
  | cons p rest ih =>
    obtain ⟨a, b⟩ := p
    rw [upsertDocs] at h
    by_cases hd : a = d
    · rw [if_pos hd] at h
      simp [docKeys] at h ⊢
      rcases h with h | h
      · exact Or.inl h
      · exact Or.inr (Or.inr h)
    · rw [if_neg hd] at h
      simp [docKeys] at h ⊢
      rcases h with h | h
      · exact Or.inr (Or.inl h)
      · rcases ih (by simpa [docKeys] using h) with h2 | h2
        · exact Or.inl h2
        · exact Or.inr (Or.inr (by simpa [docKeys] using h2))

theorem nodup_docKeys_upsertDocs {docs : List (Nat × List Nat)} {d : Nat}
    {ts : List Nat} (h : (docKeys docs).Nodup) :
    (docKeys (upsertDocs docs d ts)).Nodup := by
  induction docs with
  | nil => simp [upsertDocs, docKeys]
  | cons p rest ih =>
    obtain ⟨a, b⟩ := p
    rw [docKeys, List.map_cons, List.nodup_cons] at h
    obtain ⟨ha, hrest⟩ := h
    rw [upsertDocs]
    by_cases hd : a = d
    · rw [if_pos hd]
      subst hd
      rw [docKeys, List.map_cons, List.nodup_cons]
      exact ⟨ha, hrest⟩
    · rw [if_neg hd]
      rw [docKeys, List.map_cons, List.nodup_cons]
      refine ⟨?_, ih hrest⟩
      intro hmem
      rcases mem_docKeys_upsertDocs hmem with h2 | h2
      · exact hd h2
      · exact ha h2

theorem nodup_docKeys_applyUpserts (ops : List (Nat × List Nat))
    (st : IndexState) (h : (docKeys st.docs).Nodup) :
    (docKeys (applyUpserts ops st).docs).Nodup := by
  induction ops generalizing st with
  | nil => simpa [applyUpserts] using h
  | cons op rest ih =>
    rw [applyUpserts, List.foldl_cons]
    exact ih _ (nodup_docKeys_upsertDocs h)

theorem lookupDoc_of_mem {docs : List (Nat × List Nat)} {d : Nat}
    {ts : List Nat} (hn : (docKeys docs).Nodup) (h : (d, ts) ∈ docs) :
    lookupDoc docs d = some ts := by
  induction docs with
  | nil => simp at h
  | cons p rest ih =>
    obtain ⟨a, b⟩ := p
    rw [docKeys, List.map_cons, List.nodup_cons] at hn
    obtain ⟨ha, hrest⟩ := hn
    rcases List.mem_cons.mp h with he | hm
    · rw [Prod.mk.injEq] at he
      obtain ⟨he1, he2⟩ := he
      rw [lookupDoc, if_pos he1.symm, he2]
    · rw [lookupDoc]
      by_cases hd : a = d
      · subst hd
        exact absurd (List.mem_map_of_mem Prod.fst hm) ha
      · rw [if_neg hd]
        exact ih hrest hm

theorem lookupDoc_filter_ne (docs : List (Nat × List Nat)) (d : Nat) :
    lookupDoc (docs.filter (fun p => p.1 ≠ d)) d = none := by
  induction docs with
  | nil => rfl
  | cons p rest ih =>
    obtain ⟨a, b⟩ := p
    by_cases hd : a = d
    · rw [List.filter_cons, if_neg (by simp [hd])]
      exact ih
    · rw [List.filter_cons, if_pos (by simp [hd]), lookupDoc, if_neg hd]
      exact ih

/-- The corpus of the end-to-end search tests: documents `111 : [1,2,3]`
and `112 : [3,4,5]` upserted into a fresh index. -/
def twoDocsIndex : IndexState :=
  applyUpserts [(111, [1, 2, 3]), (112, [3, 4, 5])] emptyIndex

/-- The result list of the sorting and filtering tests. -/
def threeResults : List SearchResult :=
  [SearchResult.mk 100 1, SearchResult.mk 101 1, SearchResult.mk 101 10]

/-- Claim C1, counterexample: filtering the sorted list
`[(100,1), (101,1), (101,10)]` with `limit = 10`, `min_score = 90` does not
yield the empty list; the test `FilterSearchResultsMinScore90` pins the
output `[(101,10)]`, because `min_score` is not an absolute score bound. -/
theorem minScore_absolute_counterexample :
    filterSearchResults (sortSearchResults threeResults) 10 90 =
      [SearchResult.mk 101 10] ∧
    filterSearchResults (sortSearchResults threeResults) 10 90 ≠ [] := by
  constructor
  · decide
  · decide

/-- Claim C1, amended: `filterSearchResults` treats `min_score` as a
percentage of the score of the first (top) result: it retains exactly the
results with `score ≥ top.score * min_score / 100` (integer division,
inclusive bound), then truncates to `limit`; on the sorted test list with
`limit = 10`, `min_score = 90` the threshold is `10*90/100 = 9` and the
output is `[(101,10)]`. -/
theorem filterSearchResults_minScore_relative (top : SearchResult)
    (rest : List SearchResult) (limit m : Nat) (hm : 0 < m) :
    filterSearchResults (top :: rest) limit m =
      ((top :: rest).filter
        (fun r => top.score * m / 100 ≤ r.score)).take limit ∧
    (∀ r ∈ filterSearchResults (top :: rest) limit m,
      top.score * m / 100 ≤ r.score) ∧
    filterSearchResults (sortSearchResults threeResults) 10 90 =
      [SearchResult.mk 101 10] := by
  have he : filterSearchResults (top :: rest) limit m =
      (dropBelowScore (top.score * m / 100) (top :: rest)).take limit := by
    rw [filterSearchResults, if_pos hm]
  refine ⟨?_, ?_, by decide⟩
  · rw [he, dropBelowScore_eq_filter]
  · intro r hr
    rw [he, dropBelowScore_eq_filter] at hr
    have h2 := List.take_subset _ _ hr
    simpa using List.of_mem_filter h2

/-- Claim C1 witness: the amended characterisation applied to the sorted
test list with `limit = 10`, `min_score = 90`. -/
theorem filterSearchResults_minScore_relative_witness :
    filterSearchResults (sortSearchResults threeResults) 10 90 =
      [SearchResult.mk 101 10] :=
  (filterSearchResults_minScore_relative (SearchResult.mk 101 10)
    [SearchResult.mk 100 1, SearchResult.mk 101 1] 10 90 (by decide)).2.2

/-- Claim C3: `sortSearchResults` produces a permutation of its input that
is sorted by score descending with ties broken by docId ascending, the
sorted output is the unique such permutation (so the order is
deterministic), and the test list `[(100,1), (101,1), (101,10)]` sorts to
`[(101,10), (100,1), (101,1)]`. -/
theorem sortSearchResults_spec (l : List SearchResult) :
    (sortSearchResults l).Perm l ∧
    List.Sorted ResultOrder (sortSearchResults l) ∧
    (∀ l2, l2.Perm l → List.Sorted ResultOrder l2 →
      l2 = sortSearchResults l) ∧
    sortSearchResults threeResults =
      [SearchResult.mk 101 10, SearchResult.mk 100 1,
        SearchResult.mk 101 1] := by
  refine ⟨List.perm_insertionSort ResultOrder l,
    List.sorted_insertionSort ResultOrder l, ?_, by decide⟩
  intro l2 hp hs
  exact List.eq_of_perm_of_sorted
    (hp.trans (List.perm_insertionSort ResultOrder l).symm) hs
    (List.sorted_insertionSort ResultOrder l)

/-- Claim C3 witness: the sorting theorem applied to the concrete test
list. -/
theorem sortSearchResults_spec_witness :
    sortSearchResults threeResults =
      [SearchResult.mk 101 10, SearchResult.mk 100 1,
        SearchResult.mk 101 1] :=
  (sortSearchResults_spec []).2.2.2

/-- Claim C4: after the min-score drop, `filterSearchResults` truncates to
the first `limit` entries — the output never exceeds `limit` results, with
`min_score = 0` it is exactly `take limit`, searching the two-document
corpus for `[1,2,3]` with `limit = 1` returns exactly `[(111,3)]`, and the
sorted filter-test list truncated to 2 keeps its first two entries. -/
theorem filterSearchResults_limit_truncates :
    (∀ results limit m,
      (filterSearchResults results limit m).length ≤ limit) ∧
    (∀ results limit,
      filterSearchResults results limit 0 = List.take limit results) ∧
    searchIndex twoDocsIndex [1, 2, 3] 1 = [SearchResult.mk 111 3] ∧
    filterSearchResults (sortSearchResults threeResults) 2 0 =
      [SearchResult.mk 101 10, SearchResult.mk 100 1] := by
  refine ⟨?_, ?_, by decide, by decide⟩
  · intro results limit m
    cases results with
    | nil => simp [filterSearchResults]
    | cons top rest =>
      rw [filterSearchResults]
      exact List.length_take_le _ _
  · intro results limit
    cases results with
    | nil => rfl
    | cons top rest => rw [filterSearchResults, if_neg (by simp)]

/-- Claim C9: the two files of a segment are both derived from the common
base name `segment_<id>`; the data file is `segment_<id>.fid` and the skip
index file is `segment_<id>.fii`, as for the concrete id 42. -/
theorem segment_file_names (s : SegmentInfo) :
    s.dataFileName = s.name ++ ".fid" ∧
    s.indexFileName = s.name ++ ".fii" ∧
    s.name = "segment_" ++ toString s.id ∧
    (SegmentInfo.mk 42 0 0).dataFileName = "segment_42.fid" ∧
    (SegmentInfo.mk 42 0 0).indexFileName = "segment_42.fii" := by
  exact ⟨rfl, rfl, rfl, by decide, by decide⟩

/-- Claim C2: in an index state reached by a sequence of upserts, every
live document scores exactly the number of query term occurrences present
in its current term multiset — the scored results contain the document
with that score whenever it is at least 1 (the default `min_score`), and
any result for that docId carries exactly that score; in particular the
two-document corpus searched for `[1,2,3]` with the default limit 500
returns exactly `[(111,3), (112,1)]` in that order. -/
theorem search_score_intersection (ops : List (Nat × List Nat)) (d : Nat)
    (ts query : List Nat)
    (h : lookupDoc (applyUpserts ops emptyIndex).docs d = some ts) :
    (1 ≤ termScore query ts →
      SearchResult.mk d (termScore query ts) ∈
        searchScores (applyUpserts ops emptyIndex).docs query) ∧
    (∀ r ∈ searchScores (applyUpserts ops emptyIndex).docs query,
      r.docId = d → r.score = termScore query ts) ∧
    searchIndex twoDocsIndex [1, 2, 3] 500 =
      [SearchResult.mk 111 3, SearchResult.mk 112 1] := by
  refine ⟨fun hs => lookup_mem_searchScores h hs, ?_, by decide⟩
  intro r hr hd
  obtain ⟨ts2, hmem, hscore, _⟩ := mem_searchScores hr
  have hn : (docKeys (applyUpserts ops emptyIndex).docs).Nodup :=
    nodup_docKeys_applyUpserts ops emptyIndex (by simp [emptyIndex, docKeys])
  have h2 : lookupDoc (applyUpserts ops emptyIndex).docs d = some ts2 := by
    rw [← hd]
    exact lookupDoc_of_mem hn hmem
  rw [h] at h2
  cases h2
  exact hscore

/-- Claim C2 witness: in the two-document corpus, document 111 appears in
the scored results with score `termScore [1,2,3] [1,2,3] = 3`. -/
theorem search_score_intersection_witness :
    SearchResult.mk 111 (termScore [1, 2, 3] [1, 2, 3]) ∈
      searchScores twoDocsIndex.docs [1, 2, 3] :=
  (search_score_intersection [(111, [1, 2, 3]), (112, [3, 4, 5])] 111
    [1, 2, 3] [1, 2, 3] (by decide)).1 (by decide)

/-- Claim C5: `PUT /idx` is idempotent — it always answers status 200 with
a `revision` body, afterwards the index exists, and repeating the `PUT` on
the resulting state changes nothing and returns the same success response
(never an `AlreadyExists` 409). -/
theorem putIndex_idempotent (mi : MultiIndex) (name : String) :
    (handlePutIndex mi name).2.status = 200 ∧
    (∃ n, (handlePutIndex mi name).2.body = jsonRevision n) ∧
    (getIndex (handlePutIndex mi name).1 name).isSome = true ∧
    handlePutIndex (handlePutIndex mi name).1 name =
      ((handlePutIndex mi name).1, (handlePutIndex mi name).2) := by
  cases h : lookupIndex mi.indexes name with
  | some st =>
    rw [handlePutIndex, h]
    exact ⟨rfl, ⟨st.revision, rfl⟩, by simp [getIndex, h],
      by rw [handlePutIndex, h]⟩
  | none =>
    rw [handlePutIndex, h]
    have hc : createIndex mi name = ⟨(name, emptyIndex) :: mi.indexes⟩ := by
      rw [createIndex, h]
    have hl : lookupIndex (createIndex mi name).indexes name =
        some emptyIndex := by
      rw [hc, lookupIndex, if_pos rfl]
    refine ⟨rfl, ⟨emptyIndex.revision, rfl⟩, by simp [getIndex, hl], ?_⟩
    rw [handlePutIndex, hl]

/-- The index preloaded before the bulk tests: documents 112 and 113 with
terms `[31,41,51]`. -/
def preloadedIndex : IndexState :=
  insertOrUpdateDocument
    (insertOrUpdateDocument emptyIndex 112 [31, 41, 51]) 113 [31, 41, 51]

/-- The JSON operation objects of the bulk tests: upsert 111 and 112,
delete 113, set attribute `foo` to `bar`. -/
def bulkBatch : List Json :=
  [Json.obj [("upsert", Json.obj
      [("id", Json.num 111),
       ("terms", Json.arr [Json.num 1, Json.num 2, Json.num 3])])],
   Json.obj [("upsert", Json.obj
      [("id", Json.num 112),
       ("terms", Json.arr [Json.num 3, Json.num 4, Json.num 5])])],
   Json.obj [("delete", Json.obj [("id", Json.num 113)])],
   Json.obj [("set", Json.obj
      [("name", Json.str "foo"), ("value", Json.str "bar")])]]

/-- The index state after the bulk batch is applied to the preloaded
index. -/
def afterBulk : IndexState :=
  (handleBulk preloadedIndex (Json.arr bulkBatch)).1

/-- Claim C6: the bulk endpoint accepts a bare JSON array and the
`operations`-wrapped object with identical semantics — for every state and
operation array the two request forms produce the same state and response;
the concrete batch applied to the preloaded index (documents 112, 113)
succeeds with `200` and an empty JSON object body in both forms and leaves
documents 111 and 112 present, document 113 absent and attribute `foo`
bound to `bar`. -/
theorem bulk_array_object_equivalent :
    (∀ (st : IndexState) (xs : List Json),
      handleBulk st (Json.arr xs) =
        handleBulk st (Json.obj [("operations", Json.arr xs)])) ∧
    (handleBulk preloadedIndex (Json.arr bulkBatch)).2 =
      HttpResponse.mk 200 emptyJson ∧
    (handleBulk preloadedIndex
      (Json.obj [("operations", Json.arr bulkBatch)])).1 = afterBulk ∧
    containsDocument afterBulk 111 = true ∧
    containsDocument afterBulk 112 = true ∧
    containsDocument afterBulk 113 = false ∧
    getAttribute afterBulk "foo" = some "bar" := by
  refine ⟨fun st xs => rfl, by decide, by decide, by decide, by decide,
    by decide, by decide⟩

/-- Claim C7: `GET` and `HEAD` on a missing index answer 404 with the exact
`index does not exist` error body; on an existing index, `GET` and `HEAD`
of a missing document answer 404 with the exact `document does not exist`
error body, and of a present document answer 200 with body `id`. -/
theorem notFound_responses (mi : MultiIndex) (name : String) (d : Nat)
    (st : IndexState) :
    (getIndex mi name = none →
      handleGetIndex mi name = HttpResponse.mk 404 indexNotFoundBody ∧
      handleHeadIndex mi name = HttpResponse.mk 404 indexNotFoundBody) ∧
    (getIndex mi name = some st →
      (containsDocument st d = false →
        handleGetDocument mi name d =
          HttpResponse.mk 404 docNotFoundBody ∧
        handleHeadDocument mi name d =
          HttpResponse.mk 404 docNotFoundBody) ∧
      (containsDocument st d = true →
        handleGetDocument mi name d = HttpResponse.mk 200 (jsonId d) ∧
        handleHeadDocument mi name d = HttpResponse.mk 200 (jsonId d))) := by
  refine ⟨fun h => ?_, fun h => ⟨fun hd => ?_, fun hd => ?_⟩⟩
  · rw [handleGetIndex, h, handleHeadIndex, h]
    exact ⟨rfl, rfl⟩
  · rw [handleHeadDocument, handleGetDocument, h]
    simp [hd]
  · rw [handleHeadDocument, handleGetDocument, h]
    simp [hd]

/-- Claim C7 witness: a `GET` on the missing index `testidx` of an empty
`MultiIndex` answers 404 with the exact error body. -/
theorem notFound_responses_witness :
    handleGetIndex emptyMulti "testidx" =
      HttpResponse.mk 404 indexNotFoundBody :=
  ((notFound_responses emptyMulti "testidx" 111 emptyIndex).1 rfl).1

/-- Claim C8: after upserting document `d` and then deleting it, the
`DELETE` request answers `200` with an empty JSON object body,
`containsDocument d` is false, and `d` never appears in any search result
on the resulting state, for any query and limit. -/
theorem delete_document_removes (st : IndexState) (d : Nat)
    (ts : List Nat) :
    (handleDeleteDocument (insertOrUpdateDocument st d ts) d).2 =
      HttpResponse.mk 200 emptyJson ∧
    containsDocument
      (handleDeleteDocument (insertOrUpdateDocument st d ts) d).1 d =
        false ∧
    ∀ (query : List Nat) (limit : Nat) (r : SearchResult),
      r ∈ searchIndex
        (handleDeleteDocument (insertOrUpdateDocument st d ts) d).1
        query limit →
      r.docId ≠ d := by
  refine ⟨rfl, ?_, ?_⟩
  · rw [containsDocument]
    have : lookupDoc
        ((handleDeleteDocument (insertOrUpdateDocument st d ts) d).1).docs
        d = none := lookupDoc_filter_ne _ d
    rw [this]
    rfl
  · intro query limit r hr hd
    have h1 : r ∈ searchScores
        ((handleDeleteDocument (insertOrUpdateDocument st d ts) d).1).docs
        query :=
      mem_sortSearchResults.mp (mem_of_mem_filterSearchResults hr)
    obtain ⟨ts2, hmem, _, _⟩ := mem_searchScores h1
    rw [hd] at hmem
    have := List.of_mem_filter hmem
    simp at this

/-- Claim C8 witness: upsert then delete of document 111 on a fresh index
answers `200` with the empty JSON object body. -/
theorem delete_document_removes_witness :
    (handleDeleteDocument
      (insertOrUpdateDocument emptyIndex 111 [1, 2, 3]) 111).2 =
      HttpResponse.mk 200 emptyJson :=
  (delete_document_removes emptyIndex 111 [1, 2, 3]).1

/-- Claim C10: creating an absent index yields an index whose state is the
fresh state with revision 1, a `GET` on it answers `200` with body
`revision 1`, and the creating `PUT` answers `200` with body
`revision 1`. -/
theorem fresh_index_revision_one (mi : MultiIndex) (name : String)
    (h : lookupIndex mi.indexes name = none) :
    getIndex (createIndex mi name) name = some emptyIndex ∧
    emptyIndex.revision = 1 ∧
    handleGetIndex (createIndex mi name) name =
      HttpResponse.mk 200 (jsonRevision 1) ∧
    (handlePutIndex mi name).2 = HttpResponse.mk 200 (jsonRevision 1) := by
  have hc : createIndex mi name = ⟨(name, emptyIndex) :: mi.indexes⟩ := by
    rw [createIndex, h]
  have hl : getIndex (createIndex mi name) name = some emptyIndex := by
    rw [getIndex, hc, lookupIndex, if_pos rfl]
  refine ⟨hl, rfl, ?_, ?_⟩
  · rw [handleGetIndex, hl]
    rfl
  · rw [handlePutIndex, h]
    rfl

/-- Claim C10 witness: creating `testidx` in an empty `MultiIndex` and
reading it back answers `200` with body `revision 1`. -/
theorem fresh_index_revision_one_witness :
    handleGetIndex (createIndex emptyMulti "testidx") "testidx" =
      HttpResponse.mk 200 (jsonRevision 1) :=
  (fresh_index_revision_one emptyMulti "testidx" rfl).2.2.1

end AcoustidIndex
